import Mathlib

/-!
A verification development for `Taller5.py`, a command-line library-catalog
manager backed by a Redis-style in-memory key-value store.

The store is modelled by two association lists: one for string keys holding
JSON values (the program stores each book record, JSON-serialized, under the
key `libro:<id>`), and one for set keys holding lists of members (the program
keeps the set of all record ids under `libros:ids`; the list order models the
unspecified enumeration order returned by `SMEMBERS`).

JSON text is abstracted as its parse tree `JVal`: the store holds parsed JSON
values, so `json.dumps`/`json.loads` of a value tree are the identity, while
the construction of the record dictionary in `agregar_libro` and the field
accesses made by the other operations are modelled explicitly on `JVal`.

Python string operations used by the source (`str.strip`, `str.endswith`,
`str.isdigit`, truthiness of a value) are modelled by structurally recursive
functions on the character list of a `String`.  The year conversion
`int(anio) if anio.isdigit() else None` (with `ValueError` caught) is
modelled exactly for the stored value: it yields a number precisely when the
input is non-empty and every character is a Unicode decimal digit (general
category Nd, per the Unicode 15.0 table used by CPython 3.12), with the
usual per-character digit values; `isdigit`-true but non-decimal characters
such as superscripts make `int` raise `ValueError`, which the source
catches, so they too end in an absent year.
-/

set_option autoImplicit false

namespace Taller5

/-- A JSON value, the parse tree of the JSON text handled by
`json.dumps` / `json.loads` in the source. -/
inductive JVal where
  | jnull
  | jbool (b : Bool)
  | jint (n : Int)
  | jstr (s : String)
  | jarr (elems : List JVal)
  | jobj (fields : List (String × JVal))

/-- Dictionary lookup `v[k]` / `v.get(k)` on a JSON object; `none` on a
missing key or a non-object. -/
def jGet (v : JVal) (k : String) : Option JVal :=
  match v with
  | .jobj fields => (fields.find? (fun p => p.1 == k)).map (fun p => p.2)
  | _ => none

/-- Python truthiness of a JSON value (`if not libro:` in the source):
`None`, `False`, `0`, `""`, `[]` and `{}` are falsy. -/
def jTruthy : JVal → Bool
  | .jnull => false
  | .jbool b => b
  | .jint n => n != 0
  | .jstr s => s.data != []
  | .jarr l => !l.isEmpty
  | .jobj l => !l.isEmpty

/-- Replace the value at key `k` in an association list, keeping its
position, or append the binding at the end if the key is absent — the
behaviour of Python `dict.update` for a single key. -/
def updateAssoc {α : Type} : List (String × α) → String → α → List (String × α)
  | [], k, v => [(k, v)]
  | (k', v') :: rest, k, v =>
      if k' == k then (k, v) :: rest else (k', v') :: updateAssoc rest k v

/-- `libro.update({k: v})` on a JSON object; non-objects are returned
unchanged (the source only ever updates dictionaries). -/
def jUpdate (v : JVal) (k : String) (newv : JVal) : JVal :=
  match v with
  | .jobj fields => .jobj (updateAssoc fields k newv)
  | _ => v

/-- A book record: the fields of the dictionary `nuevo_libro` built by
`agregar_libro`. -/
structure Libro where
  id : String
  titulo : String
  autor : String
  anio_publicacion : Option Int
  genero : Option String
  leido : Bool
deriving DecidableEq

/-- `None`-or-int JSON encoding of an optional integer field. -/
def optIntJ : Option Int → JVal
  | none => .jnull
  | some n => .jint n

/-- `None`-or-string JSON encoding of an optional text field. -/
def optStrJ : Option String → JVal
  | none => .jnull
  | some s => .jstr s

/-- The JSON object `json.dumps` serializes for a record: the dictionary
literal of `agregar_libro`, key order included. -/
def encodeLibro (l : Libro) : JVal :=
  .jobj [("id", .jstr l.id), ("titulo", .jstr l.titulo), ("autor", .jstr l.autor),
         ("anio_publicacion", optIntJ l.anio_publicacion),
         ("genero", optStrJ l.genero), ("leido", .jbool l.leido)]

/-- Extract a required string field. -/
def asStr : Option JVal → Option String
  | some (.jstr s) => some s
  | _ => none

/-- Extract an optional integer field (`null` ↦ absent). -/
def asOptInt : Option JVal → Option (Option Int)
  | some .jnull => some none
  | some (.jint n) => some (some n)
  | _ => none

/-- Extract an optional string field (`null` ↦ absent). -/
def asOptStr : Option JVal → Option (Option String)
  | some .jnull => some none
  | some (.jstr s) => some (some s)
  | _ => none

/-- Extract a required boolean field. -/
def asBool : Option JVal → Option Bool
  | some (.jbool b) => some b
  | _ => none

/-- Read a record back out of its JSON object: the field accesses
`libro['id']`, `libro['titulo']`, `libro['autor']`, `libro['anio_publicacion']`,
`libro['genero']`, `libro['leido']` performed on a decoded value. -/
def decodeLibro (v : JVal) : Option Libro := do
  let id ← asStr (jGet v "id")
  let titulo ← asStr (jGet v "titulo")
  let autor ← asStr (jGet v "autor")
  let anio ← asOptInt (jGet v "anio_publicacion")
  let genero ← asOptStr (jGet v "genero")
  let leido ← asBool (jGet v "leido")
  pure ⟨id, titulo, autor, anio, genero, leido⟩

/-- Python whitespace for `str.strip()` (ASCII range). -/
def pyIsSpace (c : Char) : Bool :=
  c == ' ' || c == '\t' || c == '\n' || c == '\x0d' || c == '\x0b' || c == '\x0c'

/-- Python `s.strip()`: remove leading and trailing whitespace. -/
def pyStrip (s : String) : String :=
  ⟨((s.data.dropWhile pyIsSpace).reverse.dropWhile pyIsSpace).reverse⟩

/-- Python `s.endswith(suffix)`. -/
def pyEndsWith (s suffix : String) : Bool :=
  suffix.data.isSuffixOf s.data

/-- First code points of the blocks of ten consecutive Unicode decimal
digits (general category Nd), Unicode 15.0 — the table CPython 3.12 uses for
`str.isdigit` and `int`.  Each block runs from the listed zero digit to
zero + 9. -/
def ndStarts : List Nat :=
  [0x30, 0x660, 0x6F0, 0x7C0, 0x966, 0x9E6, 0xA66, 0xAE6, 0xB66, 0xBE6,
   0xC66, 0xCE6, 0xD66, 0xDE6, 0xE50, 0xED0, 0xF20, 0x1040, 0x1090, 0x17E0,
   0x1810, 0x1946, 0x19D0, 0x1A80, 0x1A90, 0x1B50, 0x1BB0, 0x1C40, 0x1C50,
   0xA620, 0xA8D0, 0xA900, 0xA9D0, 0xA9F0, 0xAA50, 0xABF0, 0xFF10,
   0x104A0, 0x10D30, 0x11066, 0x110F0, 0x11136, 0x111D0, 0x112F0, 0x11450,
   0x114D0, 0x11650, 0x116C0, 0x11730, 0x118E0, 0x11950, 0x11C50, 0x11D50,
   0x11DA0, 0x11F50, 0x16A60, 0x16AC0, 0x16B50,
   0x1D7CE, 0x1D7D8, 0x1D7E2, 0x1D7EC, 0x1D7F6,
   0x1E140, 0x1E2F0, 0x1E4F0, 0x1E950, 0x1FBF0]

/-- The decimal value of a Unicode decimal digit (category Nd), `none` for
every other character — the per-character conversion `int` applies. -/
def pyDigit? (c : Char) : Option Nat :=
  (ndStarts.find? (fun s => s ≤ c.toNat && c.toNat ≤ s + 9)).map
    (fun s => c.toNat - s)

/-- `int(anio) if anio.isdigit() else None` in `agregar_libro`, with the
surrounding `try/except ValueError`.  The stored year is a number exactly
when the input is non-empty and every character is a Unicode decimal digit
(Nd): `str.isdigit` also accepts non-decimal digit characters such as
superscripts, but on those `int` raises `ValueError`, which the source
catches and turns into an absent year, so the net stored value depends only
on the Nd test.  `int` accepts any mix of decimal-digit scripts,
accumulating per-character digit values positionally. -/
def parseAnio (anio : String) : Option Int :=
  if anio.data ≠ [] ∧ anio.data.all (fun c => (pyDigit? c).isSome) = true then
    some (Int.ofNat (anio.data.foldl (fun n c => n * 10 + (pyDigit? c).getD 0) 0))
  else none

/-- `KEY_PREFIX = "libro:"`, the key prefix for each stored record. -/
def KEY_PREFIX : String := "libro:"

/-- `ALL_BOOKS_KEY = "libros:ids"`, the set key indexing all record ids. -/
def ALL_BOOKS_KEY : String := "libros:ids"

/-- The key-value store: string keys holding JSON values and set keys
holding member lists (list order models the enumeration order that
`SMEMBERS` happens to return). -/
structure Store where
  strings : List (String × JVal)
  sets : List (String × List String)

/-- `GET k`: the JSON value stored at string key `k`. -/
def getStr (s : Store) (k : String) : Option JVal :=
  (s.strings.find? (fun p => p.1 == k)).map (fun p => p.2)

/-- `SET k v`. -/
def setStr (s : Store) (k : String) (v : JVal) : Store :=
  { s with strings := updateAssoc s.strings k v }

/-- `DEL k`: the number of keys removed (0 or 1) and the new store. -/
def delStr (s : Store) (k : String) : Nat × Store :=
  ((if (s.strings.find? (fun p => p.1 == k)).isSome then 1 else 0),
   { s with strings := s.strings.filter (fun p => !(p.1 == k)) })

/-- `SMEMBERS k`: the members of the set at key `k` (empty when absent). -/
def getSet (s : Store) (k : String) : List String :=
  ((s.sets.find? (fun p => p.1 == k)).map (fun p => p.2)).getD []

/-- Overwrite the member list of the set at key `k`. -/
def setSet (s : Store) (k : String) (v : List String) : Store :=
  { s with sets := updateAssoc s.sets k v }

/-- `SADD k m`: add `m` to the set at key `k` if it is not already a member. -/
def sadd (s : Store) (k m : String) : Store :=
  if m ∈ getSet s k then s else setSet s k (getSet s k ++ [m])

/-- `SREM k m`: remove `m` from the set at key `k`. -/
def srem (s : Store) (k m : String) : Store :=
  setSet s k ((getSet s k).filter (fun x => !(x == m)))

/-- `MGET ks`: the values of the string keys `ks`, in argument order. -/
def mget (s : Store) (ks : List String) : List (Option JVal) :=
  ks.map (getStr s)

/-- One step of the accumulation loop of `listar_libros`: append the value
when the batch fetch returned one, skip a `None` silently. -/
def appendIfSome {α : Type} (acc : List α) (o : Option α) : List α :=
  match o with
  | some v => acc ++ [v]
  | none => acc

/-- Outcome of `marcar_como_leido`, distinguishing its printed messages:
empty-id error, not-found warning, already-read warning, successful mark,
or an exception caught at the operation boundary. -/
inductive MarkResult where
  | emptyId
  | notFound
  | alreadyRead
  | marked
  | error
deriving DecidableEq

/-- Outcome of `eliminar_libro`: empty-id error, not-found warning,
successful deletion, removal-failure warning (`DEL` removed zero keys),
or an exception caught at the operation boundary. -/
inductive DelResult where
  | emptyId
  | notFound
  | deleted
  | delFailed
  | error
deriving DecidableEq

/-- `agregar_libro`, with the interactive inputs (title, author, year,
genre) and the generated UUID as parameters.  Returns the new id (`none`
when validation failed and the error message was printed) and the store
after the two writes. -/
def agregar_libro (tituloIn autorIn anioIn generoIn libro_id : String) (s : Store) :
    Option String × Store :=
  let titulo := pyStrip tituloIn
  let autor := pyStrip autorIn
  if titulo = "" ∨ autor = "" then (none, s)
  else
    let anio := parseAnio anioIn
    let generoRaw := pyStrip generoIn
    let nuevo_libro : Libro :=
      { id := libro_id, titulo := titulo, autor := autor,
        anio_publicacion := anio,
        genero := if generoRaw = "" then none else some generoRaw,
        leido := false }
    let key := KEY_PREFIX ++ libro_id
    let s1 := setStr s key (encodeLibro nuevo_libro)
    let s2 := sadd s1 ALL_BOOKS_KEY libro_id
    (some libro_id, s2)

/-- `buscar_libro_por_id_parcial`: fetch all ids from the index set, take
the first whose trailing characters equal `id_parcial`, and fetch and
decode its record.  The `if not libro_id_completo` test in the source is
Python truthiness, so a matched empty-string id is also treated as no
match. -/
def buscar_libro_por_id_parcial (id_parcial : String) (s : Store) :
    Option (JVal × String) :=
  let all_ids := getSet s ALL_BOOKS_KEY
  match all_ids.find? (fun i => pyEndsWith i id_parcial) with
  | none => none
  | some libro_id_completo =>
      if libro_id_completo = "" then none
      else
        let key := KEY_PREFIX ++ libro_id_completo
        match getStr s key with
        | some libro_json => some (libro_json, key)
        | none => none

/-- `listar_libros`: fetch all ids from the index set, `MGET` all the
record keys, keep the present values (skipping `None` results of the
batch fetch), and reverse the list for display. -/
def listar_libros (s : Store) : List JVal :=
  let all_ids := getSet s ALL_BOOKS_KEY
  let all_keys := all_ids.map (fun i => KEY_PREFIX ++ i)
  let libros_json_list := mget s all_keys
  let libros := libros_json_list.foldl appendIfSome []
  libros.reverse

/-- `actualizar_libro(libro, key, **kwargs)`: apply the keyword updates to
the decoded dictionary, re-serialize it and `SET` it back under `key`. -/
def actualizar_libro (libro : JVal) (key : String) (kwargs : List (String × JVal))
    (s : Store) : Store :=
  setStr s key (kwargs.foldl (fun v kv => jUpdate v kv.1 kv.2) libro)

/-- `marcar_como_leido`, with the interactive id-suffix input as a
parameter.  A truthy non-dictionary stored value would make
`libro.get('leido', False)` raise `AttributeError`, caught at the
operation boundary: the `error` outcome. -/
def marcar_como_leido (inputId : String) (s : Store) : MarkResult × Store :=
  let id_parcial := pyStrip inputId
  if id_parcial = "" then (.emptyId, s)
  else
    match buscar_libro_por_id_parcial id_parcial s with
    | none => (.notFound, s)
    | some (libro, key) =>
        if jTruthy libro = false then (.notFound, s)
        else
          match libro with
          | .jobj _ =>
              if jTruthy ((jGet libro "leido").getD (.jbool false)) then
                (.alreadyRead, s)
              else
                (.marked, actualizar_libro libro key [("leido", .jbool true)] s)
          | _ => (.error, s)

/-- `eliminar_libro`, with the interactive id-suffix input as a parameter.
The record key is deleted first; only when the deletion removed at least
one key is the id (read from the record's own `id` field) removed from the
index set.  A record value whose `id` field is missing or non-numeric and
non-string would raise inside the `try` block after the key deletion:
the `error` outcome. -/
def eliminar_libro (inputId : String) (s : Store) : DelResult × Store :=
  let id_parcial := pyStrip inputId
  if id_parcial = "" then (.emptyId, s)
  else
    match buscar_libro_por_id_parcial id_parcial s with
    | none => (.notFound, s)
    | some (libro, key) =>
        if jTruthy libro = false then (.notFound, s)
        else
          let dc := delStr s key
          if dc.1 > 0 then
            match jGet libro "id" with
            | some (.jstr i) => (.deleted, srem dc.2 ALL_BOOKS_KEY i)
            | some (.jint n) => (.deleted, srem dc.2 ALL_BOOKS_KEY (toString n))
            | _ => (.error, dc.2)
          else (.delFailed, dc.2)

/-- The record `agregar_libro` builds from its validated inputs and the
generated id (`nuevo_libro` in the source). -/
def nuevoLibro (tituloIn autorIn anioIn generoIn libro_id : String) : Libro :=
  { id := libro_id, titulo := pyStrip tituloIn, autor := pyStrip autorIn,
    anio_publicacion := parseAnio anioIn,
    genero := if pyStrip generoIn = "" then none else some (pyStrip generoIn),
    leido := false }

/-- Write confinement (storage-layout claim): between `s` and `s'`, no
string key outside the `libro:<id>` family changed value, and no set key
other than `libros:ids` changed membership. -/
def OnlyRecordKeysWritten (s s' : Store) : Prop :=
  (∀ k : String, (∀ i : String, k ≠ KEY_PREFIX ++ i) → getStr s' k = getStr s k) ∧
  (∀ k : String, k ≠ ALL_BOOKS_KEY → getSet s' k = getSet s k)

/-- Read confinement (storage-layout claim): two stores that agree on every
`libro:<id>` string key and on the `libros:ids` set are indistinguishable
to an operation that reads only those keys. -/
def ReadsAgree (s t : Store) : Prop :=
  (∀ i : String, getStr s (KEY_PREFIX ++ i) = getStr t (KEY_PREFIX ++ i)) ∧
  getSet s ALL_BOOKS_KEY = getSet t ALL_BOOKS_KEY

/-- Store integrity: every indexed id is non-empty, and every stored record
value carries its own id in its `id` field — true of every store this
program builds, since `agregar_libro` writes `encodeLibro` objects whose
`id` field is the indexed UUID. -/
def WellFormed (s : Store) : Prop :=
  (∀ i, i ∈ getSet s ALL_BOOKS_KEY → i ≠ "") ∧
  (∀ i v, i ∈ getSet s ALL_BOOKS_KEY → getStr s (KEY_PREFIX ++ i) = some v →
    jGet v "id" = some (.jstr i))

/-- A concrete record used by concrete runs in the development. -/
def libroA : Libro :=
  { id := "aaaaX", titulo := "Dune", autor := "Herbert",
    anio_publicacion := some 1965, genero := some "SciFi", leido := false }

/-- A second concrete record whose id shares the suffix `X` with `libroA`. -/
def libroB : Libro :=
  { id := "bbbbX", titulo := "Emma", autor := "Austen",
    anio_publicacion := none, genero := none, leido := false }

/-- A one-record store holding `libroA`. -/
def storeA : Store :=
  ⟨[("libro:aaaaX", encodeLibro libroA)], [("libros:ids", ["aaaaX"])]⟩

/-- A two-record store whose ids `aaaaX` and `bbbbX` share the suffix `X`. -/
def storeAB : Store :=
  ⟨[("libro:aaaaX", encodeLibro libroA), ("libro:bbbbX", encodeLibro libroB)],
   [("libros:ids", ["aaaaX", "bbbbX"])]⟩

/-! ### Association-list and store lemmas -/

theorem find?_updateAssoc_self {α : Type} (l : List (String × α)) (k : String) (v : α) :
    (updateAssoc l k v).find? (fun p => p.1 == k) = some (k, v) := by
  induction l with
  | nil => simp [updateAssoc]
  | cons hd tl ih =>
      obtain ⟨k', v'⟩ := hd
      by_cases h : k' = k
      · simp [updateAssoc, h]
      · simp [updateAssoc, h, ih]

theorem find?_updateAssoc_ne {α : Type} (l : List (String × α)) (k k' : String) (v : α)
    (h : k' ≠ k) :
    (updateAssoc l k v).find? (fun p => p.1 == k') = l.find? (fun p => p.1 == k') := by
  induction l with
  | nil => simp [updateAssoc, Ne.symm h]
  | cons hd tl ih =>
      obtain ⟨a, b⟩ := hd
      by_cases ha : a = k
      · simp [updateAssoc, ha, Ne.symm h]
      · by_cases ha' : a = k'
        · simp [updateAssoc, ha, ha', h]
        · simp [updateAssoc, ha, ha', h, ih]

theorem updateAssoc_ne_nil {α : Type} (l : List (String × α)) (k : String) (v : α) :
    updateAssoc l k v ≠ [] := by
  cases l with
  | nil => simp [updateAssoc]
  | cons hd tl =>
      obtain ⟨a, b⟩ := hd
      by_cases h : a = k <;> simp [updateAssoc, h]

theorem find?_filter_keyNe {α : Type} (l : List (String × α)) (k k' : String) :
    (l.filter (fun p => !(p.1 == k))).find? (fun p => p.1 == k') =
      if k' = k then none else l.find? (fun p => p.1 == k') := by
  induction l with
  | nil => by_cases h : k' = k <;> simp [h]
  | cons hd tl ih =>
      obtain ⟨a, b⟩ := hd
      by_cases ha : a = k
      · by_cases h : k' = k
        · simp [List.filter_cons, ha, ih, h]
        · simp [List.filter_cons, ha, ih, h, Ne.symm h]
      · by_cases ha' : a = k'
        · have h : k' ≠ k := fun hh => ha (ha'.trans hh)
          simp [List.filter_cons, ha, ha', h]
        · by_cases h : k' = k
          · simp [List.filter_cons, ha, ha', ih, h]
          · simp [List.filter_cons, ha, ha', ih, h]

theorem getStr_setStr (s : Store) (k k' : String) (v : JVal) :
    getStr (setStr s k v) k' = if k' = k then some v else getStr s k' := by
  by_cases h : k' = k
  · simp [getStr, setStr, h, find?_updateAssoc_self]
  · simp [getStr, setStr, h, find?_updateAssoc_ne _ _ _ _ h]

theorem getStr_delStr (s : Store) (k k' : String) :
    getStr (delStr s k).2 k' = if k' = k then none else getStr s k' := by
  have h1 : (delStr s k).2.strings = s.strings.filter (fun p => !(p.1 == k)) := rfl
  unfold getStr
  rw [h1, find?_filter_keyNe]
  by_cases h : k' = k <;> simp [h]

theorem delStr_fst (s : Store) (k : String) :
    (delStr s k).1 = if (getStr s k).isSome then 1 else 0 := by
  unfold delStr getStr
  cases s.strings.find? (fun p => p.1 == k) <;> simp

theorem getStr_setSet (s : Store) (k k' : String) (v : List String) :
    getStr (setSet s k v) k' = getStr s k' := rfl

theorem getStr_sadd (s : Store) (k m k' : String) :
    getStr (sadd s k m) k' = getStr s k' := by
  unfold sadd
  split <;> rfl

theorem getStr_srem (s : Store) (k m k' : String) :
    getStr (srem s k m) k' = getStr s k' := rfl

theorem getSet_setStr (s : Store) (k k' : String) (v : JVal) :
    getSet (setStr s k v) k' = getSet s k' := rfl

theorem getSet_delStr (s : Store) (k k' : String) :
    getSet (delStr s k).2 k' = getSet s k' := rfl

theorem getSet_setSet (s : Store) (k k' : String) (v : List String) :
    getSet (setSet s k v) k' = if k' = k then v else getSet s k' := by
  by_cases h : k' = k
  · simp [getSet, setSet, h, find?_updateAssoc_self]
  · simp [getSet, setSet, h, find?_updateAssoc_ne _ _ _ _ h]

theorem getSet_sadd (s : Store) (k m k' : String) :
    getSet (sadd s k m) k' =
      if k' = k then (if m ∈ getSet s k then getSet s k else getSet s k ++ [m])
      else getSet s k' := by
  unfold sadd
  by_cases hm : m ∈ getSet s k <;> by_cases h : k' = k <;>
    simp [hm, h, getSet_setSet]

theorem getSet_srem (s : Store) (k m k' : String) :
    getSet (srem s k m) k' =
      if k' = k then (getSet s k).filter (fun x => !(x == m)) else getSet s k' := by
  unfold srem
  by_cases h : k' = k <;> simp [h, getSet_setSet]

theorem jGet_jUpdate_self (fields : List (String × JVal)) (k : String) (v : JVal) :
    jGet (jUpdate (JVal.jobj fields) k v) k = some v := by
  simp [jGet, jUpdate, find?_updateAssoc_self]

theorem appendLeftCancel {a b c : String} (h : a ++ b = a ++ c) : b = c := by
  have hd := congrArg String.data h
  simp [String.data_append] at hd
  exact String.ext hd

/-! ### Operation-level characterizations -/

theorem buscar_eq (p : String) (s : Store) :
    buscar_libro_por_id_parcial p s =
      match (getSet s ALL_BOOKS_KEY).find? (fun i => pyEndsWith i p) with
      | none => none
      | some i =>
          if i = "" then none
          else (getStr s (KEY_PREFIX ++ i)).map (fun v => (v, KEY_PREFIX ++ i)) := by
  cases hfind : (getSet s ALL_BOOKS_KEY).find? (fun i => pyEndsWith i p) with
  | none => simp [buscar_libro_por_id_parcial, hfind]
  | some i =>
      by_cases hi : i = ""
      · simp [buscar_libro_por_id_parcial, hfind, hi]
      · cases hg : getStr s (KEY_PREFIX ++ i) <;>
          simp [buscar_libro_por_id_parcial, hfind, hi, hg]

theorem buscar_some {p : String} {s : Store} {v : JVal} {k : String}
    (h : buscar_libro_por_id_parcial p s = some (v, k)) :
    ∃ i, (getSet s ALL_BOOKS_KEY).find? (fun j => pyEndsWith j p) = some i ∧
      i ∈ getSet s ALL_BOOKS_KEY ∧ i ≠ "" ∧ pyEndsWith i p = true ∧
      k = KEY_PREFIX ++ i ∧ getStr s k = some v := by
  rw [buscar_eq] at h
  cases hfind : (getSet s ALL_BOOKS_KEY).find? (fun j => pyEndsWith j p) with
  | none => rw [hfind] at h; exact absurd h (by simp)
  | some i =>
      simp only [hfind] at h
      by_cases hi : i = ""
      · rw [if_pos hi] at h; exact absurd h (by simp)
      · rw [if_neg hi] at h
        cases hg : getStr s (KEY_PREFIX ++ i) with
        | none => rw [hg] at h; exact absurd h (by simp)
        | some w =>
            rw [hg] at h
            simp only [Option.map_some'] at h
            obtain ⟨hv, hk⟩ := Prod.mk.injEq .. ▸ Option.some.injEq _ _ ▸ h
            refine ⟨i, rfl, List.mem_of_find?_eq_some hfind, hi,
              by simpa using List.find?_some hfind, hk.symm, ?_⟩
            rw [← hk, hg, hv]

theorem buscar_none_of_no_match {p : String} {s : Store}
    (h : ∀ i ∈ getSet s ALL_BOOKS_KEY, pyEndsWith i p = false) :
    buscar_libro_por_id_parcial p s = none := by
  rw [buscar_eq]
  have hfind : (getSet s ALL_BOOKS_KEY).find? (fun i => pyEndsWith i p) = none := by
    rw [List.find?_eq_none]
    intro i hi
    simp [h i hi]
  rw [hfind]

theorem foldl_collect {α : Type} (l : List (Option α)) (acc : List α) :
    l.foldl appendIfSome acc = acc ++ l.filterMap id := by
  induction l generalizing acc with
  | nil => simp
  | cons hd tl ih => cases hd <;> simp [appendIfSome, ih]

theorem listar_eq (s : Store) :
    listar_libros s =
      ((getSet s ALL_BOOKS_KEY).filterMap (fun i => getStr s (KEY_PREFIX ++ i))).reverse := by
  simp only [listar_libros, mget]
  rw [foldl_collect]
  simp only [List.nil_append, List.filterMap_map]
  rfl

theorem jUpdate_encodeLibro (l : Libro) :
    jUpdate (encodeLibro l) "leido" (.jbool true) = encodeLibro { l with leido := true } :=
  rfl

theorem agregar_eq_invalid {t a : String} (y g id : String) (s : Store)
    (hv : pyStrip t = "" ∨ pyStrip a = "") :
    agregar_libro t a y g id s = (none, s) := by
  simp [agregar_libro, hv]

theorem agregar_eq_valid {t a : String} (y g id : String) (s : Store)
    (hv : ¬(pyStrip t = "" ∨ pyStrip a = "")) :
    agregar_libro t a y g id s =
      (some id,
       sadd (setStr s (KEY_PREFIX ++ id) (encodeLibro (nuevoLibro t a y g id)))
         ALL_BOOKS_KEY id) := by
  simp [agregar_libro, nuevoLibro, hv]

theorem marcar_eq_empty {inp : String} (s : Store) (he : pyStrip inp = "") :
    marcar_como_leido inp s = (.emptyId, s) := by
  simp [marcar_como_leido, he]

theorem marcar_eq_notFound {inp : String} {s : Store} (he : pyStrip inp ≠ "")
    (hb : buscar_libro_por_id_parcial (pyStrip inp) s = none) :
    marcar_como_leido inp s = (.notFound, s) := by
  simp only [marcar_como_leido, hb]
  rw [if_neg he]

theorem marcar_eq_found {inp : String} {s : Store} {libro : JVal} {key : String}
    (he : pyStrip inp ≠ "")
    (hb : buscar_libro_por_id_parcial (pyStrip inp) s = some (libro, key)) :
    marcar_como_leido inp s =
      (if jTruthy libro = false then (.notFound, s)
       else match libro with
         | .jobj _ =>
             if jTruthy ((jGet libro "leido").getD (.jbool false)) then (.alreadyRead, s)
             else (.marked, actualizar_libro libro key [("leido", .jbool true)] s)
         | _ => (.error, s)) := by
  simp only [marcar_como_leido, hb]
  rw [if_neg he]

theorem marcar_eq_already {inp : String} {s : Store} {fields : List (String × JVal)}
    {key : String} (he : pyStrip inp ≠ "")
    (hb : buscar_libro_por_id_parcial (pyStrip inp) s = some (.jobj fields, key))
    (ht : jTruthy (JVal.jobj fields) = true)
    (hr : jTruthy ((jGet (JVal.jobj fields) "leido").getD (.jbool false)) = true) :
    marcar_como_leido inp s = (.alreadyRead, s) := by
  simp only [marcar_como_leido, hb]
  rw [if_neg he, if_neg (by simp [ht]), if_pos hr]

theorem marcar_eq_marked {inp : String} {s : Store} {fields : List (String × JVal)}
    {key : String} (he : pyStrip inp ≠ "")
    (hb : buscar_libro_por_id_parcial (pyStrip inp) s = some (.jobj fields, key))
    (ht : jTruthy (JVal.jobj fields) = true)
    (hr : jTruthy ((jGet (JVal.jobj fields) "leido").getD (.jbool false)) = false) :
    marcar_como_leido inp s =
      (.marked, setStr s key (.jobj (updateAssoc fields "leido" (.jbool true)))) := by
  simp only [marcar_como_leido, hb]
  rw [if_neg he, if_neg (by simp [ht]), if_neg (by simp [hr])]
  rfl

theorem eliminar_eq_empty {inp : String} (s : Store) (he : pyStrip inp = "") :
    eliminar_libro inp s = (.emptyId, s) := by
  simp [eliminar_libro, he]

theorem eliminar_eq_notFound {inp : String} {s : Store} (he : pyStrip inp ≠ "")
    (hb : buscar_libro_por_id_parcial (pyStrip inp) s = none) :
    eliminar_libro inp s = (.notFound, s) := by
  simp only [eliminar_libro, hb]
  rw [if_neg he]

theorem eliminar_eq_found {inp : String} {s : Store} {libro : JVal} {key : String}
    (he : pyStrip inp ≠ "")
    (hb : buscar_libro_por_id_parcial (pyStrip inp) s = some (libro, key)) :
    eliminar_libro inp s =
      (if jTruthy libro = false then (.notFound, s)
       else if (delStr s key).1 > 0 then
         match jGet libro "id" with
         | some (.jstr i) => (.deleted, srem (delStr s key).2 ALL_BOOKS_KEY i)
         | some (.jint n) => (.deleted, srem (delStr s key).2 ALL_BOOKS_KEY (toString n))
         | _ => (.error, (delStr s key).2)
       else (.delFailed, (delStr s key).2)) := by
  simp only [eliminar_libro, hb]
  rw [if_neg he]

theorem marcar_snd_cases (inp : String) (s : Store) :
    (marcar_como_leido inp s).2 = s ∨
    ∃ i v, getStr s (KEY_PREFIX ++ i) = some v ∧
      (marcar_como_leido inp s).2 =
        setStr s (KEY_PREFIX ++ i) (jUpdate v "leido" (.jbool true)) := by
  by_cases he : pyStrip inp = ""
  · rw [marcar_eq_empty s he]
    exact Or.inl rfl
  · cases hb : buscar_libro_por_id_parcial (pyStrip inp) s with
    | none =>
        rw [marcar_eq_notFound he hb]
        exact Or.inl rfl
    | some pr =>
        obtain ⟨libro, key⟩ := pr
        obtain ⟨i, hfind, hmem, hi, hends, hk, hget⟩ := buscar_some hb
        rw [marcar_eq_found he hb]
        split
        · exact Or.inl rfl
        · split
          · split
            · exact Or.inl rfl
            · rename_i v0 fields h1 h2
              refine Or.inr ⟨i, JVal.jobj fields, ?_, ?_⟩
              · rw [← hk]; exact hget
              · rw [hk]
                rfl
          · exact Or.inl rfl

theorem eliminar_snd_cases (inp : String) (s : Store) :
    (eliminar_libro inp s).2 = s ∨
    ∃ i, (eliminar_libro inp s).2 = (delStr s (KEY_PREFIX ++ i)).2 ∨
      ∃ m, (eliminar_libro inp s).2 = srem (delStr s (KEY_PREFIX ++ i)).2 ALL_BOOKS_KEY m := by
  by_cases he : pyStrip inp = ""
  · rw [eliminar_eq_empty s he]
    exact Or.inl rfl
  · cases hb : buscar_libro_por_id_parcial (pyStrip inp) s with
    | none =>
        rw [eliminar_eq_notFound he hb]
        exact Or.inl rfl
    | some pr =>
        obtain ⟨libro, key⟩ := pr
        obtain ⟨i, hfind, hmem, hi, hends, hk, hget⟩ := buscar_some hb
        rw [eliminar_eq_found he hb]
        split
        · exact Or.inl rfl
        · split
          · split
            · rename_i m heq
              exact Or.inr ⟨i, Or.inr ⟨m, by rw [hk]⟩⟩
            · rename_i n heq
              exact Or.inr ⟨i, Or.inr ⟨toString n, by rw [hk]⟩⟩
            · refine Or.inr ⟨i, Or.inl ?_⟩
              rw [hk]
          · refine Or.inr ⟨i, Or.inl ?_⟩
            rw [hk]

/-! ### Claims -/

/-- Claim C4: when the title or the author is empty after trimming, `add`
performs no store mutation (it returns the input store unchanged, so neither
the record key nor the index set is written), returns no new id, and takes
the validation-message branch. -/
theorem C4_invalid_add_writes_nothing (t a y g id : String) (s : Store)
    (hv : pyStrip t = "" ∨ pyStrip a = "") :
    agregar_libro t a y g id s = (none, s) :=
  agregar_eq_invalid y g id s hv

/-- Witness for C4 at a concrete whitespace title. -/
theorem C4_witness :
    (pyStrip "   " = "" ∨ pyStrip "Austen" = "") ∧
    agregar_libro "   " "Austen" "1815" "" "ccccY" storeA = (none, storeA) :=
  ⟨Or.inl rfl, C4_invalid_add_writes_nothing "   " "Austen" "1815" "" "ccccY" storeA (Or.inl rfl)⟩

/-- Claim C10: when the entered id suffix is empty after trimming, both
`mark_read` and `delete` report the empty-id error and return the store
unchanged, performing no search and no mutation, so the empty suffix never
matches a record. -/
theorem C10_empty_suffix_guard (inp : String) (s : Store) (he : pyStrip inp = "") :
    marcar_como_leido inp s = (.emptyId, s) ∧ eliminar_libro inp s = (.emptyId, s) :=
  ⟨marcar_eq_empty s he, eliminar_eq_empty s he⟩

/-- Witness for C10 at a concrete whitespace input. -/
theorem C10_witness :
    pyStrip "  " = "" ∧
    marcar_como_leido "  " storeA = (MarkResult.emptyId, storeA) ∧
    eliminar_libro "  " storeA = (DelResult.emptyId, storeA) :=
  ⟨rfl, (C10_empty_suffix_guard "  " storeA rfl).1, (C10_empty_suffix_guard "  " storeA rfl).2⟩

/-- Claim C6: decoding the JSON encoding of any record reproduces every
field exactly; in particular an absent publication year and an absent genre
remain absent. -/
theorem C6_codec_roundtrip (l : Libro) : decodeLibro (encodeLibro l) = some l := by
  obtain ⟨i, t, a, y, g, r⟩ := l
  cases y <;> cases g <;> rfl

/-- Claim C7: the publication year is parsed only from a digit-only input;
any input that is empty or contains a character that is not a decimal digit
(in Python's Unicode sense — so including signs, spaces and letters) yields
an absent year without raising an error, and (with valid title and author)
the add still proceeds, storing the record with `anio_publicacion = None`. -/
theorem C7_nondigit_year_absent (t a y g id : String) (s : Store)
    (hval : pyStrip t ≠ "" ∧ pyStrip a ≠ "")
    (hy : y.data = [] ∨ ∃ c ∈ y.data, pyDigit? c = none) :
    parseAnio y = none ∧
    (agregar_libro t a y g id s).1 = some id ∧
    getStr (agregar_libro t a y g id s).2 (KEY_PREFIX ++ id) =
      some (encodeLibro (nuevoLibro t a y g id)) ∧
    (nuevoLibro t a y g id).anio_publicacion = none := by
  have hpn : parseAnio y = none := by
    unfold parseAnio
    rcases hy with h0 | ⟨c, hc, hcd⟩
    · rw [if_neg]; rintro ⟨h1, -⟩; exact h1 h0
    · rw [if_neg]; rintro ⟨-, h2⟩
      rw [List.all_eq_true] at h2
      have hcc := h2 c hc
      rw [hcd] at hcc
      simp at hcc
  have hv : ¬(pyStrip t = "" ∨ pyStrip a = "") := by
    rintro (h | h)
    exacts [hval.1 h, hval.2 h]
  have h1 : (agregar_libro t a y g id s).1 = some id := by
    rw [agregar_eq_valid y g id s hv]
  have h2 : (agregar_libro t a y g id s).2 =
      sadd (setStr s (KEY_PREFIX ++ id) (encodeLibro (nuevoLibro t a y g id)))
        ALL_BOOKS_KEY id := by
    rw [agregar_eq_valid y g id s hv]
  refine ⟨hpn, h1, ?_, ?_⟩
  · rw [h2, getStr_sadd, getStr_setStr, if_pos rfl]
  · simp [nuevoLibro, hpn]

/-- Witness for C7 at a concrete year input containing a letter. -/
theorem C7_witness :
    parseAnio "19x5" = none ∧
    (agregar_libro "Dune" "Herbert" "19x5" "" "ddddZ" storeA).1 = some "ddddZ" ∧
    getStr (agregar_libro "Dune" "Herbert" "19x5" "" "ddddZ" storeA).2
        (KEY_PREFIX ++ "ddddZ") =
      some (encodeLibro (nuevoLibro "Dune" "Herbert" "19x5" "" "ddddZ")) ∧
    (nuevoLibro "Dune" "Herbert" "19x5" "" "ddddZ").anio_publicacion = none :=
  C7_nondigit_year_absent "Dune" "Herbert" "19x5" "" "ddddZ" storeA
    ⟨by decide, by decide⟩ (Or.inr ⟨'x', by decide, by decide⟩)

/-- Sanity check of the year model against CPython: Arabic-Indic and
fullwidth decimal digits do parse (so they are rightly outside C7's
non-digit hypothesis), while a superscript — `isdigit`-true but not a
decimal digit, so `int` raises and the source catches — stays absent, as
does a sign, a space and a mixed input. -/
theorem parseAnio_model_checks :
    parseAnio "1965" = some 1965 ∧ parseAnio "٣٤" = some 34 ∧
    parseAnio "１２３" = some 123 ∧ parseAnio "¹" = none ∧
    parseAnio "-19" = none ∧ parseAnio " 19" = none ∧
    parseAnio "19x5" = none ∧ parseAnio "" = none := by
  refine ⟨rfl, rfl, rfl, rfl, rfl, rfl, rfl, rfl⟩

/-- Claim C8: `list_all` fetches all index-set members, batch-fetches their
record keys with `MGET`, keeps the decoded present values, silently skips
absent values, and returns them in the reverse of the retrieval order. -/
theorem C8_listar_reverse_of_mget (s : Store) :
    listar_libros s =
      ((mget s ((getSet s ALL_BOOKS_KEY).map (fun i => KEY_PREFIX ++ i))).filterMap id).reverse := by
  rw [listar_eq]
  simp only [mget, List.filterMap_map]
  rfl

/-- Claim C5: `find_by_id_suffix` scans the index-set members and returns
the decoded record and key of the first id whose trailing characters equal
the suffix; it returns absent both when no indexed id ends with the suffix
and when the matched id's record key has no stored value.  The hypothesis
that no indexed id is the empty string holds of every store the program
builds (ids are UUID strings). -/
theorem C5_buscar_first_match (p : String) (s : Store)
    (hne : ∀ i ∈ getSet s ALL_BOOKS_KEY, i ≠ "") :
    ((getSet s ALL_BOOKS_KEY).find? (fun i => pyEndsWith i p) = none →
        buscar_libro_por_id_parcial p s = none) ∧
    (∀ i, (getSet s ALL_BOOKS_KEY).find? (fun i => pyEndsWith i p) = some i →
        getStr s (KEY_PREFIX ++ i) = none →
        buscar_libro_por_id_parcial p s = none) ∧
    (∀ i v, (getSet s ALL_BOOKS_KEY).find? (fun i => pyEndsWith i p) = some i →
        getStr s (KEY_PREFIX ++ i) = some v →
        buscar_libro_por_id_parcial p s = some (v, KEY_PREFIX ++ i)) := by
  refine ⟨?_, ?_, ?_⟩
  · intro h
    rw [buscar_eq, h]
  · intro i hf hg
    have hi : i ≠ "" := hne i (List.mem_of_find?_eq_some hf)
    rw [buscar_eq]
    simp only [hf]
    rw [if_neg hi, hg]
    rfl
  · intro i v hf hg
    have hi : i ≠ "" := hne i (List.mem_of_find?_eq_some hf)
    rw [buscar_eq]
    simp only [hf]
    rw [if_neg hi, hg]
    rfl

/-- Witness for C5: the concrete one-record store, suffix `X`. -/
theorem C5_witness :
    buscar_libro_por_id_parcial "X" storeA =
      some (encodeLibro libroA, KEY_PREFIX ++ "aaaaX") :=
  (C5_buscar_first_match "X" storeA (by decide)).2.2 "aaaaX" (encodeLibro libroA) rfl rfl

/-- Claim C9: the only mutation any operation ever performs on a stored
record is setting its read flag to true.  `mark_read` either leaves a stored
record untouched or rewrites it with only `leido` flipped to true (the
update `actualizar_libro` preserves id, title, author, year and genre);
`add` under a fresh id never modifies an existing record; `delete` only
preserves or removes record values, never altering one; the two read
operations return no store at all. -/
theorem C9_only_read_flag_mutated :
    (∀ inp s k l, getStr s k = some (encodeLibro l) →
       getStr (marcar_como_leido inp s).2 k = some (encodeLibro l) ∨
       getStr (marcar_como_leido inp s).2 k =
         some (encodeLibro { l with leido := true })) ∧
    (∀ l key s, actualizar_libro (encodeLibro l) key [("leido", JVal.jbool true)] s =
       setStr s key (encodeLibro { l with leido := true })) ∧
    (∀ t a y g id s k l, getStr s (KEY_PREFIX ++ id) = none →
       getStr s k = some (encodeLibro l) →
       getStr (agregar_libro t a y g id s).2 k = some (encodeLibro l)) ∧
    (∀ inp s k, getStr (eliminar_libro inp s).2 k = getStr s k ∨
       getStr (eliminar_libro inp s).2 k = none) := by
  refine ⟨?_, ?_, ?_, ?_⟩
  · intro inp s k l hl
    rcases marcar_snd_cases inp s with h | ⟨i, v, hv, h⟩
    · rw [h]; exact Or.inl hl
    · rw [h, getStr_setStr]
      by_cases hk : k = KEY_PREFIX ++ i
      · have hveq : v = encodeLibro l := by
          rw [hk] at hl
          exact Option.some.inj (hv.symm.trans hl)
        rw [if_pos hk, hveq, jUpdate_encodeLibro]
        exact Or.inr rfl
      · rw [if_neg hk]; exact Or.inl hl
  · intro l key s; rfl
  · intro t a y g id s k l hfresh hl
    by_cases hv : pyStrip t = "" ∨ pyStrip a = ""
    · rw [agregar_eq_invalid y g id s hv]; exact hl
    · have h2 : (agregar_libro t a y g id s).2 =
          sadd (setStr s (KEY_PREFIX ++ id) (encodeLibro (nuevoLibro t a y g id)))
            ALL_BOOKS_KEY id := by
        rw [agregar_eq_valid y g id s hv]
      rw [h2, getStr_sadd, getStr_setStr]
      by_cases hk : k = KEY_PREFIX ++ id
      · rw [hk] at hl
        exact absurd (hl.symm.trans hfresh) (by simp)
      · rw [if_neg hk]; exact hl
  · intro inp s k
    rcases eliminar_snd_cases inp s with h | ⟨i, h | ⟨m, h⟩⟩
    · rw [h]; exact Or.inl rfl
    · rw [h, getStr_delStr]
      by_cases hk : k = KEY_PREFIX ++ i
      · rw [if_pos hk]; exact Or.inr rfl
      · rw [if_neg hk]; exact Or.inl rfl
    · rw [h, getStr_srem, getStr_delStr]
      by_cases hk : k = KEY_PREFIX ++ i
      · rw [if_pos hk]; exact Or.inr rfl
      · rw [if_neg hk]; exact Or.inl rfl

/-- Witness for C9: a concrete mark-read run on the one-record store. -/
theorem C9_witness :
    getStr storeA "libro:aaaaX" = some (encodeLibro libroA) ∧
    (getStr (marcar_como_leido "X" storeA).2 "libro:aaaaX" = some (encodeLibro libroA) ∨
     getStr (marcar_como_leido "X" storeA).2 "libro:aaaaX" =
       some (encodeLibro { libroA with leido := true })) :=
  ⟨rfl, C9_only_read_flag_mutated.1 "X" storeA "libro:aaaaX" libroA rfl⟩

/-- Claim C3: `mark_read` is idempotent in effect.  Whenever a call
actually marks a record (`marked` outcome, producing store `s'`), the
record found by the same suffix in `s'` has its `leido` field true, and a
second call with the same input reports `alreadyRead` and returns `s'`
unchanged — no store write is performed. -/
theorem C3_mark_read_idempotent (inp : String) (s s' : Store)
    (h : marcar_como_leido inp s = (MarkResult.marked, s')) :
    (∃ key v, buscar_libro_por_id_parcial (pyStrip inp) s' = some (v, key) ∧
        jGet v "leido" = some (JVal.jbool true)) ∧
    marcar_como_leido inp s' = (MarkResult.alreadyRead, s') := by
  have he : pyStrip inp ≠ "" := by
    intro hempty
    rw [marcar_eq_empty s hempty] at h
    simp at h
  cases hb : buscar_libro_por_id_parcial (pyStrip inp) s with
  | none =>
      rw [marcar_eq_notFound he hb] at h
      simp at h
  | some pr =>
      obtain ⟨libro, key⟩ := pr
      obtain ⟨i, hfind, hmem, hi, hends, hk, hget⟩ := buscar_some hb
      by_cases ht : jTruthy libro = false
      · rw [marcar_eq_found he hb, if_pos ht] at h
        simp at h
      · have ht' : jTruthy libro = true := by
          cases hjt : jTruthy libro
          · exact absurd hjt ht
          · rfl
        cases libro with
        | jobj fields =>
            by_cases hr : jTruthy ((jGet (JVal.jobj fields) "leido").getD (.jbool false)) = true
            · rw [marcar_eq_already he hb ht' hr] at h
              simp at h
            · have hr' : jTruthy ((jGet (JVal.jobj fields) "leido").getD (.jbool false)) = false := by
                cases hx : jTruthy ((jGet (JVal.jobj fields) "leido").getD (.jbool false))
                · rfl
                · exact absurd hx hr
              rw [marcar_eq_marked he hb ht' hr'] at h
              injection h with h1 h2
              subst h2
              have hleido : jGet (JVal.jobj (updateAssoc fields "leido" (.jbool true))) "leido" =
                  some (.jbool true) :=
                jGet_jUpdate_self fields "leido" (.jbool true)
              have hb' : buscar_libro_por_id_parcial (pyStrip inp)
                  (setStr s key (.jobj (updateAssoc fields "leido" (.jbool true)))) =
                  some (.jobj (updateAssoc fields "leido" (.jbool true)), KEY_PREFIX ++ i) := by
                rw [buscar_eq, getSet_setStr]
                simp only [hfind]
                rw [if_neg hi, getStr_setStr, if_pos hk.symm]
                rfl
              have hFne := updateAssoc_ne_nil fields "leido" (JVal.jbool true)
              have ht2 : jTruthy (JVal.jobj (updateAssoc fields "leido" (.jbool true))) = true := by
                cases hF : updateAssoc fields "leido" (JVal.jbool true) with
                | nil => exact absurd hF hFne
                | cons a tl => simp [jTruthy, hF]
              have hr2 : jTruthy ((jGet (JVal.jobj (updateAssoc fields "leido" (.jbool true)))
                  "leido").getD (.jbool false)) = true := by
                rw [hleido]
                rfl
              exact ⟨⟨KEY_PREFIX ++ i, _, hb', hleido⟩, marcar_eq_already he hb' ht2 hr2⟩
        | jnull =>
            rw [marcar_eq_found he hb, if_neg ht] at h
            simp at h
        | jbool b =>
            rw [marcar_eq_found he hb, if_neg ht] at h
            simp at h
        | jint n =>
            rw [marcar_eq_found he hb, if_neg ht] at h
            simp at h
        | jstr str =>
            rw [marcar_eq_found he hb, if_neg ht] at h
            simp at h
        | jarr elems =>
            rw [marcar_eq_found he hb, if_neg ht] at h
            simp at h

/-- Witness for C3: a concrete mark-read run on the one-record store. -/
theorem C3_witness :
    (∃ key v, buscar_libro_por_id_parcial (pyStrip "X") (marcar_como_leido "X" storeA).2 =
        some (v, key) ∧ jGet v "leido" = some (JVal.jbool true)) ∧
    marcar_como_leido "X" (marcar_como_leido "X" storeA).2 =
      (MarkResult.alreadyRead, (marcar_como_leido "X" storeA).2) :=
  C3_mark_read_idempotent "X" storeA (marcar_como_leido "X" storeA).2 rfl

theorem onlyRecordKeys_refl (s : Store) : OnlyRecordKeysWritten s s :=
  ⟨fun _ _ => rfl, fun _ _ => rfl⟩

theorem agregar_frame (t a y g id : String) (s : Store) :
    OnlyRecordKeysWritten s (agregar_libro t a y g id s).2 := by
  by_cases hv : pyStrip t = "" ∨ pyStrip a = ""
  · rw [agregar_eq_invalid y g id s hv]
    exact onlyRecordKeys_refl s
  · have h2 : (agregar_libro t a y g id s).2 =
        sadd (setStr s (KEY_PREFIX ++ id) (encodeLibro (nuevoLibro t a y g id)))
          ALL_BOOKS_KEY id := by
      rw [agregar_eq_valid y g id s hv]
    rw [h2]
    constructor
    · intro k hkk
      rw [getStr_sadd, getStr_setStr, if_neg (hkk id)]
    · intro k hkk
      rw [getSet_sadd, if_neg hkk, getSet_setStr]

theorem marcar_frame (inp : String) (s : Store) :
    OnlyRecordKeysWritten s (marcar_como_leido inp s).2 := by
  rcases marcar_snd_cases inp s with h | ⟨i, v, hv, h⟩
  · rw [h]; exact onlyRecordKeys_refl s
  · rw [h]
    constructor
    · intro k hkk
      rw [getStr_setStr, if_neg (hkk i)]
    · intro k hkk
      rw [getSet_setStr]

theorem eliminar_frame (inp : String) (s : Store) :
    OnlyRecordKeysWritten s (eliminar_libro inp s).2 := by
  rcases eliminar_snd_cases inp s with h | ⟨i, h | ⟨m, h⟩⟩
  · rw [h]; exact onlyRecordKeys_refl s
  · rw [h]
    constructor
    · intro k hkk
      rw [getStr_delStr, if_neg (hkk i)]
    · intro k hkk
      rw [getSet_delStr]
  · rw [h]
    constructor
    · intro k hkk
      rw [getStr_srem, getStr_delStr, if_neg (hkk i)]
    · intro k hkk
      rw [getSet_srem, if_neg hkk, getSet_delStr]

theorem buscar_readsAgree {s t : Store} (h : ReadsAgree s t) (p : String) :
    buscar_libro_por_id_parcial p s = buscar_libro_por_id_parcial p t := by
  rw [buscar_eq, buscar_eq, h.2]
  cases hf : (getSet t ALL_BOOKS_KEY).find? (fun i => pyEndsWith i p) with
  | none => rfl
  | some i => simp only [h.1 i]

theorem listar_readsAgree {s t : Store} (h : ReadsAgree s t) :
    listar_libros s = listar_libros t := by
  rw [listar_eq, listar_eq, h.2]
  exact congrArg List.reverse (List.filterMap_congr (fun i _ => h.1 i))

theorem agregar_fst_store_indep (t a y g id : String) (s s2 : Store) :
    (agregar_libro t a y g id s).1 = (agregar_libro t a y g id s2).1 := by
  by_cases hv : pyStrip t = "" ∨ pyStrip a = ""
  · rw [agregar_eq_invalid y g id s hv, agregar_eq_invalid y g id s2 hv]
  · rw [agregar_eq_valid y g id s hv, agregar_eq_valid y g id s2 hv]

theorem marcar_fst_readsAgree {s t : Store} (h : ReadsAgree s t) (inp : String) :
    (marcar_como_leido inp s).1 = (marcar_como_leido inp t).1 := by
  by_cases he : pyStrip inp = ""
  · rw [marcar_eq_empty s he, marcar_eq_empty t he]
  · cases hb : buscar_libro_por_id_parcial (pyStrip inp) s with
    | none =>
        have hb2 : buscar_libro_por_id_parcial (pyStrip inp) t = none :=
          (buscar_readsAgree h (pyStrip inp)).symm.trans hb
        rw [marcar_eq_notFound he hb, marcar_eq_notFound he hb2]
    | some pr =>
        obtain ⟨libro, key⟩ := pr
        have hb2 : buscar_libro_por_id_parcial (pyStrip inp) t = some (libro, key) :=
          (buscar_readsAgree h (pyStrip inp)).symm.trans hb
        rw [marcar_eq_found he hb, marcar_eq_found he hb2]
        by_cases ht : jTruthy libro = false
        · rw [if_pos ht, if_pos ht]
        · rw [if_neg ht, if_neg ht]
          cases libro with
          | jobj fields =>
              by_cases hr : jTruthy ((jGet (JVal.jobj fields) "leido").getD (.jbool false)) = true
              · simp only [if_pos hr]
              · simp only [if_neg hr]
          | jnull => rfl
          | jbool b => rfl
          | jint n => rfl
          | jstr str => rfl
          | jarr elems => rfl

theorem eliminar_fst_readsAgree {s t : Store} (h : ReadsAgree s t) (inp : String) :
    (eliminar_libro inp s).1 = (eliminar_libro inp t).1 := by
  by_cases he : pyStrip inp = ""
  · rw [eliminar_eq_empty s he, eliminar_eq_empty t he]
  · cases hb : buscar_libro_por_id_parcial (pyStrip inp) s with
    | none =>
        have hb2 : buscar_libro_por_id_parcial (pyStrip inp) t = none :=
          (buscar_readsAgree h (pyStrip inp)).symm.trans hb
        rw [eliminar_eq_notFound he hb, eliminar_eq_notFound he hb2]
    | some pr =>
        obtain ⟨libro, key⟩ := pr
        have hb2 : buscar_libro_por_id_parcial (pyStrip inp) t = some (libro, key) :=
          (buscar_readsAgree h (pyStrip inp)).symm.trans hb
        obtain ⟨i, hfind, hmem, hi, hends, hk, hget⟩ := buscar_some hb
        have hget2 : getStr t key = some libro := by
          rw [hk, ← h.1 i, ← hk]; exact hget
        have hc1 : (delStr s key).1 = 1 := by rw [delStr_fst, hget]; rfl
        have hc2 : (delStr t key).1 = 1 := by rw [delStr_fst, hget2]; rfl
        rw [eliminar_eq_found he hb, eliminar_eq_found he hb2]
        by_cases ht : jTruthy libro = false
        · rw [if_pos ht, if_pos ht]
        · rw [if_neg ht, if_neg ht]
          simp only [hc1, hc2]
          cases hw : jGet libro "id" with
          | none => simp
          | some w => cases w <;> simp

/-- Claim C1: storage layout.  Every operation writes only `libro:<id>`
string keys and the `libros:ids` set key (the three mutating operations
satisfy write confinement), and every operation reads only those keys: two
stores that agree on all `libro:<id>` keys and on the `libros:ids` set are
indistinguishable — `find` and `list` return identical results on them, and
`add`, `mark-read` and `delete` report identical outcomes. -/
theorem C1_storage_layout :
    (∀ t a y g id s, OnlyRecordKeysWritten s (agregar_libro t a y g id s).2) ∧
    (∀ inp s, OnlyRecordKeysWritten s (marcar_como_leido inp s).2) ∧
    (∀ inp s, OnlyRecordKeysWritten s (eliminar_libro inp s).2) ∧
    (∀ s t, ReadsAgree s t →
      (∀ p, buscar_libro_por_id_parcial p s = buscar_libro_por_id_parcial p t) ∧
      listar_libros s = listar_libros t ∧
      (∀ t2 a y g id, (agregar_libro t2 a y g id s).1 = (agregar_libro t2 a y g id t).1) ∧
      (∀ inp, (marcar_como_leido inp s).1 = (marcar_como_leido inp t).1) ∧
      (∀ inp, (eliminar_libro inp s).1 = (eliminar_libro inp t).1)) :=
  ⟨agregar_frame, marcar_frame, eliminar_frame, fun _ t h =>
    ⟨fun p => buscar_readsAgree h p, listar_readsAgree h,
     fun t2 a y g id => agregar_fst_store_indep t2 a y g id _ t,
     fun inp => marcar_fst_readsAgree h inp,
     fun inp => eliminar_fst_readsAgree h inp⟩⟩

/-- Witness for C1: the read-confinement conjunct applied at the concrete
one-record store (which agrees with itself on all record keys and on the
index set). -/
theorem C1_witness :
    ReadsAgree storeA storeA ∧ listar_libros storeA = listar_libros storeA :=
  ⟨⟨fun _ => rfl, rfl⟩,
   (C1_storage_layout.2.2.2 storeA storeA ⟨fun _ => rfl, rfl⟩).2.1⟩

theorem storeA_wf : WellFormed storeA := by
  have hl : getSet storeA ALL_BOOKS_KEY = ["aaaaX"] := rfl
  constructor
  · intro i hi
    rw [hl] at hi
    rw [List.mem_singleton.mp hi]
    decide
  · intro i v hi hv
    rw [hl] at hi
    rw [List.mem_singleton.mp hi] at hv ⊢
    have hg : getStr storeA (KEY_PREFIX ++ "aaaaX") = some (encodeLibro libroA) := rfl
    rw [hg] at hv
    have hveq := Option.some.inj hv
    subst hveq
    rfl

theorem eliminar_deleted_analysis {inp : String} {s s' : Store}
    (hwf : WellFormed s)
    (h : eliminar_libro inp s = (DelResult.deleted, s')) :
    ∃ i, i ∈ getSet s ALL_BOOKS_KEY ∧ i ≠ "" ∧ pyEndsWith i (pyStrip inp) = true ∧
      (getSet s ALL_BOOKS_KEY).find? (fun j => pyEndsWith j (pyStrip inp)) = some i ∧
      s' = srem (delStr s (KEY_PREFIX ++ i)).2 ALL_BOOKS_KEY i := by
  have he : pyStrip inp ≠ "" := by
    intro hempty
    rw [eliminar_eq_empty s hempty] at h
    simp at h
  cases hb : buscar_libro_por_id_parcial (pyStrip inp) s with
  | none =>
      rw [eliminar_eq_notFound he hb] at h
      simp at h
  | some pr =>
      obtain ⟨libro, key⟩ := pr
      obtain ⟨i, hfind, hmem, hi, hends, hk, hget⟩ := buscar_some hb
      have hwfid : jGet libro "id" = some (.jstr i) :=
        hwf.2 i libro hmem (by rw [← hk]; exact hget)
      by_cases ht : jTruthy libro = false
      · rw [eliminar_eq_found he hb, if_pos ht] at h
        simp at h
      · rw [eliminar_eq_found he hb, if_neg ht] at h
        have hc : (delStr s key).1 = 1 := by rw [delStr_fst, hget]; rfl
        rw [if_pos (by rw [hc]; exact Nat.one_pos)] at h
        rw [hwfid] at h
        simp only at h
        injection h with h1 h2
        exact ⟨i, hmem, hi, hends, hfind, by rw [← h2, hk]⟩

/-- Counterexample to claim C2 as stated: in a store holding two records
whose ids `aaaaX` and `bbbbX` both end in `X`, deleting by suffix `X`
succeeds (removing `aaaaX`), yet a subsequent `find_by_id_suffix` for the
same suffix does not return absent — it returns the other record. -/
theorem C2_counterexample :
    (eliminar_libro "X" storeAB).1 = DelResult.deleted ∧
    buscar_libro_por_id_parcial "X" (eliminar_libro "X" storeAB).2 =
      some (encodeLibro libroB, KEY_PREFIX ++ "bbbbX") := by
  constructor <;> rfl

/-- Claim C2 (amended): for every successful delete, both the record value
and the id's membership in the index set are removed, and a subsequent
`list_all` excludes the record; a subsequent `find_by_id_suffix` for the
suffix returns absent provided no other indexed id ends with that suffix;
and a zero-key removal leaves the index set unchanged while the
removal-failure outcome is reported.  The store-integrity hypothesis
(`WellFormed`) holds of every store the program builds. -/
theorem C2_delete_removes_value_and_index (inp : String) (s : Store)
    (hwf : WellFormed s) :
    (∀ s', eliminar_libro inp s = (DelResult.deleted, s') →
      ∃ i, i ∈ getSet s ALL_BOOKS_KEY ∧ pyEndsWith i (pyStrip inp) = true ∧
        getStr s' (KEY_PREFIX ++ i) = none ∧
        i ∉ getSet s' ALL_BOOKS_KEY ∧
        (∀ v ∈ listar_libros s', jGet v "id" ≠ some (JVal.jstr i)) ∧
        ((∀ j ∈ getSet s ALL_BOOKS_KEY, pyEndsWith j (pyStrip inp) = true → j = i) →
          buscar_libro_por_id_parcial (pyStrip inp) s' = none)) ∧
    (∀ s', eliminar_libro inp s = (DelResult.delFailed, s') →
      getSet s' ALL_BOOKS_KEY = getSet s ALL_BOOKS_KEY) ∧
    (∀ k, getSet (delStr s k).2 ALL_BOOKS_KEY = getSet s ALL_BOOKS_KEY) := by
  refine ⟨?_, ?_, fun k => getSet_delStr s k ALL_BOOKS_KEY⟩
  · intro s' h
    obtain ⟨i, hmem, hi, hends, hfind, hs'⟩ := eliminar_deleted_analysis hwf h
    subst hs'
    have hsets : getSet (srem (delStr s (KEY_PREFIX ++ i)).2 ALL_BOOKS_KEY i)
        ALL_BOOKS_KEY = (getSet s ALL_BOOKS_KEY).filter (fun x => !(x == i)) := by
      rw [getSet_srem, if_pos rfl, getSet_delStr]
    refine ⟨i, hmem, hends, ?_, ?_, ?_, ?_⟩
    · rw [getStr_srem, getStr_delStr, if_pos rfl]
    · rw [hsets]
      intro hmem'
      have hfalse := (List.mem_filter.mp hmem').2
      simp at hfalse
    · intro v hv hcontra
      rw [listar_eq] at hv
      obtain ⟨j, hj, hfj⟩ := List.mem_filterMap.mp (List.mem_reverse.mp hv)
      rw [hsets] at hj
      obtain ⟨hjs, hjne'⟩ := List.mem_filter.mp hj
      have hjne : j ≠ i := by simpa using hjne'
      rw [getStr_srem, getStr_delStr,
        if_neg (fun hkk => hjne (appendLeftCancel hkk))] at hfj
      have hidj := hwf.2 j v hjs hfj
      rw [hcontra] at hidj
      exact hjne (JVal.jstr.inj (Option.some.inj hidj)).symm
    · intro huniq
      apply buscar_none_of_no_match
      intro j hj
      rw [hsets] at hj
      obtain ⟨hjs, hjne'⟩ := List.mem_filter.mp hj
      have hjne : j ≠ i := by simpa using hjne'
      cases hpe : pyEndsWith j (pyStrip inp)
      · rfl
      · exact absurd (huniq j hjs hpe) hjne
  · intro s' h
    have he : pyStrip inp ≠ "" := by
      intro hempty
      rw [eliminar_eq_empty s hempty] at h
      simp at h
    cases hb : buscar_libro_por_id_parcial (pyStrip inp) s with
    | none =>
        rw [eliminar_eq_notFound he hb] at h
        simp at h
    | some pr =>
        obtain ⟨libro, key⟩ := pr
        obtain ⟨i, hfind, hmem, hi, hends, hk, hget⟩ := buscar_some hb
        by_cases ht : jTruthy libro = false
        · rw [eliminar_eq_found he hb, if_pos ht] at h
          simp at h
        · rw [eliminar_eq_found he hb, if_neg ht] at h
          have hc : (delStr s key).1 = 1 := by rw [delStr_fst, hget]; rfl
          rw [if_pos (by rw [hc]; exact Nat.one_pos)] at h
          cases hw : jGet libro "id" with
          | none => rw [hw] at h; simp at h
          | some w => cases w <;> rw [hw] at h <;> simp at h

/-- Witness for the amended C2 at the concrete one-record store. -/
theorem C2_witness :
    ∃ i, i ∈ getSet storeA ALL_BOOKS_KEY ∧ pyEndsWith i (pyStrip "X") = true ∧
      getStr (eliminar_libro "X" storeA).2 (KEY_PREFIX ++ i) = none ∧
      i ∉ getSet (eliminar_libro "X" storeA).2 ALL_BOOKS_KEY ∧
      (∀ v ∈ listar_libros (eliminar_libro "X" storeA).2,
        jGet v "id" ≠ some (JVal.jstr i)) ∧
      ((∀ j ∈ getSet storeA ALL_BOOKS_KEY, pyEndsWith j (pyStrip "X") = true → j = i) →
        buscar_libro_por_id_parcial (pyStrip "X") (eliminar_libro "X" storeA).2 = none) :=
  (C2_delete_removes_value_and_index "X" storeA storeA_wf).1
    (eliminar_libro "X" storeA).2 rfl

end Taller5
